import Mathlib

/-!
A shallow embedding of `src/blockchain.js` (class `Blockchain`) of the
star-registry ledger, together with models of the `Block` class from the
repository's `block.js`, which is not under `src/` and is therefore modelled
from the spec where noted.

Conventions of the embedding:
* JavaScript numbers that hold whole seconds are modelled as `Nat` (the source
  derives them via `new Date().getTime().toString().slice(0,-3)`, i.e. the
  decimal seconds text of a clock that is assumed to be at least one second
  past the epoch).
* `parseInt` results are `Option Int`, with `none` modelling `NaN`.
* A promise executor that calls `resolve`/`reject` several times settles with
  the first call; later calls are ignored.  This is modelled explicitly in
  `submitStar`, whose source rejects without returning ("fire-and-forget").
* SHA-256 is modelled as an injective function of its input string: every
  claim concerns which fields the digest covers, never the digest internals,
  so an ideal collision-free hash is an injective string map.
-/

namespace StarLedger

/-! ## Models of JavaScript string and number primitives -/

/-- Decimal digit characters of `n`, most significant first, fuel-based so it
reduces by `rfl`/`decide`; models `Number.prototype.toString()` for naturals. -/
def natToDigitsAux : Nat → Nat → List Char → List Char
  | 0, _, acc => acc
  | fuel + 1, n, acc =>
    let acc2 := Nat.digitChar (n % 10) :: acc
    if n < 10 then acc2 else natToDigitsAux fuel (n / 10) acc2

/-- Reasoning-friendly form of the decimal digits of `n` (not used by the
operational definitions, only to prove facts about `natToStr`). -/
def natDigits (n : Nat) : List Char :=
  if _h : n < 10 then [Nat.digitChar n]
  else
    have : n / 10 < n := Nat.div_lt_self (by omega) (by omega)
    natDigits (n / 10) ++ [Nat.digitChar (n % 10)]
termination_by n

/-- The decimal string of a natural number. -/
def natToStr (n : Nat) : String := String.mk (natToDigitsAux (n + 1) n [])

/-- Numeric value of a list of decimal digit characters, most significant
first. -/
def digitsVal (cs : List Char) : Nat := cs.foldl (fun a c => 10 * a + (c.toNat - 48)) 0

/-- Split a character list at every ':' occurrence; models
`String.prototype.split(':')` (which always returns a non-empty array). -/
def splitColon : List Char → List (List Char)
  | [] => [[]]
  | c :: rest =>
    if c = ':' then [] :: splitColon rest
    else
      match splitColon rest with
      | [] => [[c]]
      | g :: gs => (c :: g) :: gs

/-- The whitespace characters `parseInt` skips (the common ones suffice for
this model). -/
def jsWhitespace (c : Char) : Bool := c == ' ' || c == '\t' || c == '\n' || c == '\r'

/-- Longest prefix of decimal digits, as a number; `none` models `NaN` when no
digit is present. -/
def parseIntDigits (cs : List Char) : Option Nat :=
  let ds := cs.takeWhile Char.isDigit
  if ds.isEmpty then none else some (digitsVal ds)

/-- Models JavaScript `parseInt(s)` in base 10: skip leading whitespace, an
optional sign, then the longest prefix of decimal digits; `none` models `NaN`. -/
def parseIntJS (s : String) : Option Int :=
  let cs := s.data.dropWhile jsWhitespace
  match cs with
  | [] => none
  | c :: rest =>
    if c == '-' then (parseIntDigits rest).map (fun n => -(n : Int))
    else if c == '+' then (parseIntDigits rest).map (fun n => (n : Int))
    else (parseIntDigits (c :: rest)).map (fun n => (n : Int))

/-! ## The Block data model

`block.js` is not under `src/`; the `Block` record, its constructor, payload
decoding and self-validation are modelled from the spec (§3, §4.1). -/

/-- Structured payload content: the genesis marker `\x7bdata: 'Genesis Block'\x7d`
or an ownership claim `\x7bowner, star\x7d`. -/
inductive Payload where
  | genesisData (data : String)
  | starData (owner : String) (star : String)
deriving Repr, DecidableEq, Inhabited

/-- Modelled from the spec: `block.js` is not under `src/`.  The payload is
"stored encoded (e.g. hex) so arbitrary bytes round-trip through hashing
deterministically"; the hex-of-JSON body is modelled as an injective tagged,
length-prefixed encoding. -/
def encodePayload : Payload → String
  | .genesisData d => String.mk ('G' :: ':' :: d.data)
  | .starData o s =>
    String.mk ('S' :: ':' :: (natToDigitsAux (o.length + 1) o.length [] ++ ':' :: o.data ++ s.data))

/-- Decoder for `encodePayload`; any string outside the image of the encoding
fails, modelling "malformed hex or malformed structured content". -/
def decodePayloadChars : List Char → Except String Payload
  | 'G' :: ':' :: rest => .ok (.genesisData (String.mk rest))
  | 'S' :: ':' :: rest =>
    let lenDigits := rest.takeWhile Char.isDigit
    if lenDigits.isEmpty then .error "DecodeError: malformed payload"
    else
      match rest.drop lenDigits.length with
      | ':' :: rest2 =>
        let n := digitsVal lenDigits
        if n ≤ rest2.length then
          .ok (.starData (String.mk (rest2.take n)) (String.mk (rest2.drop n)))
        else .error "DecodeError: malformed payload"
      | _ => .error "DecodeError: malformed payload"
  | _ => .error "DecodeError: malformed payload"

/-- Modelled from the spec: `decode_payload` fails with `DecodeError` iff the
stored body is not valid encoded data. -/
def decodePayload (s : String) : Except String Payload := decodePayloadChars s.data

/-- The block record, field names and order as in the repository's `Block`
class (`hash`, `height`, `body`, `time`, `previousBlockHash`); `hash` and
`previousBlockHash` are `Option` so the constructor can leave them unset
(`null`). -/
structure Block where
  hash : Option String
  height : Nat
  body : String
  time : Nat
  previousBlockHash : Option String
deriving Repr, DecidableEq, Inhabited

/-- `decodedBody.owner` (blockchain.js:241): `undefined` (`none`) for a genesis
payload. -/
def Payload.owner : Payload → Option String
  | .genesisData _ => none
  | .starData o _ => some o

/-- SHA-256 modelled as an injective function of the serialized input (ideal
collision-free digest); source: `const SHA256 = require('crypto-js/sha256')`. -/
def SHA256 (s : String) : String := String.mk ('#' :: s.data)

/-- Serialization of an optional (`null`-able) string field. -/
def optField : Option String → String
  | none => "null"
  | some s => String.mk ('s' :: ':' :: s.data)

/-- Models `JSON.stringify(block)` (blockchain.js:80): a record serialization
of every field in declaration order, including the `hash` field as it stands at
serialization time. -/
def serializeBlock (b : Block) : String :=
  "hash=" ++ optField b.hash ++ ";height=" ++ natToStr b.height ++ ";body=" ++ b.body ++
    ";time=" ++ natToStr b.time ++ ";previousBlockHash=" ++ optField b.previousBlockHash

/-- Modelled from the spec: `block.js` is not under `src/`.  `validate()`
"recomputes the digest over the block's fields excluding the stored `hash`,
and returns whether it equals the stored `hash`" (§4.1); the recomputation
serializes the block with the `hash` field cleared — exactly the state the
stored hash was computed over — and compares.  Pure boolean, as the spec
requires (blockchain.js:268,279 call it synchronously). -/
def Block.validate (b : Block) : Bool :=
  b.hash == some (SHA256 (serializeBlock { b with hash := none }))

/-- Modelled from the spec: `block.js` is not under `src/`.  `getBData()`
deserializes the stored payload, failing with `DecodeError` on malformed
bytes (§4.1). -/
def Block.getBData (b : Block) : Except String Payload := decodePayload b.body

/-- Modelled from the spec: `block.js` is not under `src/`.  `new Block(data)`
"constructs a block with payload set, `height`/`timestamp`/`previous_hash`/
`hash` left unset (populated later by the Ledger at append time)" (§4.1);
the unset numeric fields are 0, the unset nullable fields `none`. -/
def newBlock (p : Payload) : Block :=
  { hash := none, height := 0, body := encodePayload p, time := 0, previousBlockHash := none }

/-! ## The Blockchain (Ledger) state and operations, from `src/blockchain.js` -/

/-- The `Blockchain` instance state: `this.chain` and `this.height`
(constructor, blockchain.js:25-29; `height` starts at `-1`). -/
structure Chain where
  chain : List Block
  height : Int
deriving Repr, DecidableEq

/-- `getChainHeight()` (blockchain.js:46-50). -/
def getChainHeight (c : Chain) : Int := c.height

/-- `_getLatestBlock()` (blockchain.js:103-110): last element, or `null`. -/
def getLatestBlock (c : Chain) : Option Block := c.chain.getLast?

/-- The loop body of `validateChain()` for index `i` (blockchain.js:274-286):
push a self-validation failure, then a previous-hash mismatch. -/
def chainLoopStep (blocks : List Block) (errorLog : List String) (i : Nat) : List String :=
  let previousBlock := blocks.getD (i - 1) default
  let currentBlock := blocks.getD i default
  let errorLog2 :=
    if currentBlock.validate then errorLog
    else errorLog ++ ["Block " ++ natToStr i ++ " validation failed."]
  if currentBlock.previousBlockHash == previousBlock.hash then errorLog2
  else errorLog2 ++ ["Block " ++ natToStr i ++ " previous hash invalid!"]

/-- The `errorLog` accumulated by `validateChain()` (blockchain.js:258-297):
length 0 → no checks; length 1 → self-validate block 0 only; otherwise a loop
over `i = 1 .. length-1`. -/
def chainErrorLog (blocks : List Block) : List String :=
  if blocks.length == 0 then []
  else if blocks.length == 1 then
    if (blocks.getD 0 default).validate then [] else ["Block 0 validation failed."]
  else (List.range' 1 (blocks.length - 1)).foldl (chainLoopStep blocks) []

/-- `validateChain()` (blockchain.js:258-297): resolves `true` when the error
log is empty, otherwise rejects with the ordered error log. -/
def validateChain (c : Chain) : Except (List String) Bool :=
  if (chainErrorLog c.chain).length == 0 then .ok true else .error (chainErrorLog c.chain)

/-- `_addBlock(block)` (blockchain.js:64-101).  The executor first awaits
`validateChain()`; a rejected validation makes that `await` throw inside the
executor, so the `_addBlock` promise never settles and nothing is mutated —
modelled as the `.error` outcome carrying the error log.  (The subsequent
`if(!valid) reject(...)` is dead code: `validateChain` only ever resolves
`true`.)  On success the block's `time` and `height` are assigned, the hash is
computed — BEFORE `previousBlockHash` is assigned, as in the source — the
block is pushed, and `this.height` becomes the new `chain.length`.
`if(newHash)` always takes the truthy branch: the digest string is non-empty. -/
def addBlock (now : Nat) (c : Chain) (block : Block) : Except (List String) (Chain × Block) :=
  match validateChain c with
  | .error errorLog => .error errorLog
  | .ok _ =>
    let b1 := { block with time := now, height := c.chain.length }
    let newHash := SHA256 (serializeBlock b1)
    let b2 := { b1 with hash := some newHash }
    let b3 :=
      if c.chain.length > 0 then
        match getLatestBlock c with
        | some latest => { b2 with previousBlockHash := latest.hash }
        | none => b2
      else b2
    .ok ({ chain := c.chain ++ [b3], height := ((c.chain.length + 1 : Nat) : Int) }, b3)

/-- `initializeChain()` (blockchain.js:36-41): when `height === -1`, appends a
genesis block with payload `\x7bdata: 'Genesis Block'\x7d` via `_addBlock`. -/
def initChain (now : Nat) (c : Chain) : Chain :=
  if c.height == -1 then
    match addBlock now c (newBlock (Payload.genesisData "Genesis Block")) with
    | .ok (c2, _) => c2
    | .error _ => c
  else c

/-- A freshly constructed `Blockchain` whose constructor ran at wall-clock
second `now` (blockchain.js:25-29): empty chain, `height = -1`, then
`initializeChain()`. -/
def newChain (now : Nat) : Chain := initChain now { chain := [], height := -1 }

/-- `requestMessageOwnershipVerification(address)` (blockchain.js:128-136);
`now` is the current wall clock in whole seconds
(`new Date().getTime().toString().slice(0,-3)`). -/
def requestMessageOwnershipVerification (now : Nat) (address : String) : String :=
  address ++ ":" ++ natToStr now ++ ":starRegistry"

/-- `parseInt(message.split(':')[1])` (blockchain.js:159); `none` models `NaN`
(also when index 1 is `undefined`: `parseInt(undefined)` is `NaN`). -/
def parseTimestamp (message : String) : Option Int :=
  match (splitColon message.data).get? 1 with
  | none => none
  | some cs => parseIntJS (String.mk cs)

/-- `currentTime >= (messageTime + 5*60)` (blockchain.js:164); every comparison
with `NaN` is `false` in JavaScript, so a `none` timestamp never counts as
expired. -/
def expiredCheck (currentTime : Nat) (messageTime : Option Int) : Bool :=
  match messageTime with
  | none => false
  | some t => decide ((currentTime : Int) ≥ t + 300)

/-- Settlement of the `submitStar` promise: `resolved`/`rejected` record the
first `resolve`/`reject` call (later calls are ignored); `pending` marks the
path where an inner `validateChain` rejection leaves the promise unsettled
(an unhandled rejection carrying the error log). -/
inductive Outcome where
  | resolved (b : Block)
  | rejected (msg : String)
  | pending (errorLog : List String)
deriving Repr, DecidableEq

/-- The body of `submitStar` from the signature-verification step onwards
(blockchain.js:168-185), given in `firstReject` the settlement the expiry
check already made, if any.  The source's rejections do not `return`
("fire-and-forget"), so execution continues past them; the returned `Chain`
is the ledger state after the call. -/
def submitStarVerify (verify : String → String → String → Except String Bool)
    (now : Nat) (c : Chain) (address message signature star : String)
    (firstReject : Option String) : Outcome × Chain :=
  match verify message address signature with
  | .error e =>
    (Outcome.rejected (firstReject.getD e), c)
  | .ok isValid =>
    let afterSig :=
      if isValid then firstReject else some (firstReject.getD "Failed message validation.")
    match addBlock now c (newBlock (Payload.starData address star)) with
    | .error errorLog =>
      (match afterSig with
       | some m => Outcome.rejected m
       | none => Outcome.pending errorLog, c)
    | .ok (c2, nb) =>
      (match afterSig with
       | some m => Outcome.rejected m
       | none => Outcome.resolved nb, c2)

/-- `submitStar(address, message, signature, star)` (blockchain.js:155-187);
`verify` is the external `bitcoinMessage.verify` capability, whose thrown
errors are modelled as `.error`. -/
def submitStar (verify : String → String → String → Except String Bool)
    (now : Nat) (c : Chain) (address message signature star : String) : Outcome × Chain :=
  let firstReject :=
    if expiredCheck now (parseTimestamp message) then some "Message Expired" else none
  submitStarVerify verify now c address message signature star firstReject

/-- The `forEach` body of `getStarsByWalletAddress` (blockchain.js:236-247):
a failing `getBData()` rejects (only the first rejection settles), the loop
keeps running either way. -/
def starsStep (address : String) (acc : Option String × List Payload) (oneBlock : Block) :
    Option String × List Payload :=
  match oneBlock.getBData with
  | .error e =>
    (match acc.1 with
     | some e0 => some e0
     | none => some e, acc.2)
  | .ok decodedBody =>
    if decodedBody.owner == some address then (acc.1, acc.2 ++ [decodedBody])
    else (acc.1, acc.2)

/-- `getStarsByWalletAddress(address)` (blockchain.js:229-250): scan every
block; the final `resolve(stars)` is ignored when a decode error already
rejected the promise. -/
def getStarsByWalletAddress (c : Chain) (address : String) : Except String (List Payload) :=
  let result := c.chain.foldl (starsStep address) (none, [])
  match result.1 with
  | some e => .error e
  | none => .ok result.2

/-! ## Spec-side characterizations (written from the claims, for comparison) -/

/-- The walk of the chain-validation claim, stated from the spec's words: from
index 1 to the end, accumulate a description when the block's `validate()`
fails and a description when its `previous_hash` differs from the prior
block's hash, in that order; `i` is the index of the head of the list. -/
def walkErrors (i : Nat) : List Block → List String
  | [] => []
  | [_] => []
  | b0 :: b1 :: rest =>
    (if b1.validate then [] else ["Block " ++ natToStr (i + 1) ++ " validation failed."]) ++
      (if b1.previousBlockHash == b0.hash then []
       else ["Block " ++ natToStr (i + 1) ++ " previous hash invalid!"]) ++
      walkErrors (i + 1) (b1 :: rest)

/-- Chain validation as the claim states it: a chain of length 0 is valid; a
chain of length 1 is valid iff the sole block's `validate()` passes; for
longer chains, success iff the walk reports no errors, failure carrying the
ordered list of every inconsistency found. -/
def validateChainSpec (blocks : List Block) : Except (List String) Bool :=
  if blocks.length = 0 then .ok true
  else if blocks.length = 1 then
    if (blocks.getD 0 default).validate then .ok true
    else .error ["Block 0 validation failed."]
  else if walkErrors 0 blocks = [] then .ok true
  else .error (walkErrors 0 blocks)

/-- The first decode failure along the chain, if any (spec-side view of the
wallet scan). -/
def firstDecodeError : List Block → Option String
  | [] => none
  | b :: rest =>
    match b.getBData with
    | .error e => some e
    | .ok _ => firstDecodeError rest

/-- The decoded payloads owned by `address`, in chain order (spec-side view of
the wallet scan). -/
def ownedStars (address : String) (blocks : List Block) : List Payload :=
  blocks.filterMap fun b =>
    match b.getBData with
    | .ok p => if p.owner == some address then some p else none
    | .error _ => none

/-! ## Reachable ledger states

Every mutation of the ledger in the source goes through `_addBlock` with a
freshly constructed block: the genesis append in `initializeChain` and the
star append in `submitStar` (a failed `submitStar` either leaves the state
unchanged or performs exactly that same `_addBlock`). -/

/-- Chain states reachable through construction followed by append
operations. -/
inductive Reachable : Chain → Prop where
  | init (t : Nat) : Reachable (newChain t)
  | step (t : Nat) (p : Payload) (c c2 : Chain) (b : Block) :
      Reachable c → addBlock t c (newBlock p) = .ok (c2, b) → Reachable c2

/-- The structural invariant of reachable states: `height` mirrors
`chain.length`, the chain is non-empty, block `i` records height `i`, each
non-genesis block links to its predecessor's hash, and the genesis block keeps
the sentinel (`null`) previous hash. -/
def ChainInv (c : Chain) : Prop :=
  c.height = (c.chain.length : Int) ∧ 0 < c.chain.length ∧
    (∀ i, i < c.chain.length → (c.chain.getD i default).height = i) ∧
    (∀ i, 0 < i → i < c.chain.length →
      (c.chain.getD i default).previousBlockHash = (c.chain.getD (i - 1) default).hash) ∧
    (c.chain.getD 0 default).previousBlockHash = none

/-! ## Concrete sample values used by counterexamples and witnesses -/

/-- A signature verifier that accepts everything. -/
def verifyAlwaysTrue : String → String → String → Except String Bool := fun _ _ _ => .ok true

/-- A signature verifier that rejects everything (returns `false`, does not
throw). -/
def verifyAlwaysFalse : String → String → String → Except String Bool := fun _ _ _ => .ok false

/-- Appending one star block to a freshly constructed ledger. -/
def sampleAdd : Except (List String) (Chain × Block) :=
  addBlock 800 (newChain 500) (newBlock (Payload.starData "addrA" "star1"))

/-- The two-block chain produced by `sampleAdd`. -/
def sampleChain2 : Chain := ((sampleAdd.toOption).map Prod.fst).getD (newChain 500)

/-- The non-genesis block of `sampleChain2`. -/
def sampleBlock1 : Block := ((sampleAdd.toOption).map Prod.snd).getD default

/-- The two error descriptions `validateChain`'s loop can push for index `i`,
in push order (proof-side regrouping of `chainLoopStep`). -/
def errsAt (blocks : List Block) (i : Nat) : List String :=
  (if (blocks.getD i default).validate then []
   else ["Block " ++ natToStr i ++ " validation failed."]) ++
    (if (blocks.getD i default).previousBlockHash == (blocks.getD (i - 1) default).hash then []
     else ["Block " ++ natToStr i ++ " previous hash invalid!"])

/-- The genesis block a constructor running at second `t` creates (the closed
form of the single block of `newChain t`). -/
def genesisBlockAt (t : Nat) : Block :=
  { hash := some (SHA256 (serializeBlock
      { hash := none, height := 0, body := encodePayload (Payload.genesisData "Genesis Block"),
        time := t, previousBlockHash := none })),
    height := 0, body := encodePayload (Payload.genesisData "Genesis Block"), time := t,
    previousBlockHash := none }

/-! ## Lemmas about the primitive models -/

theorem digitChar_facts (d : Nat) (h : d < 10) :
    (Nat.digitChar d).isDigit = true ∧ (Nat.digitChar d).toNat - 48 = d := by
  interval_cases d <;> exact ⟨by decide, by decide⟩

theorem isDigit_beq_false {c : Char} (h : c.isDigit = true) {d : Char}
    (hd : d.isDigit = false) : (c == d) = false := by
  cases hb : c == d with
  | false => rfl
  | true =>
    rw [beq_iff_eq.mp hb] at h
    rw [h] at hd
    exact absurd hd (by simp)

theorem isDigit_ne_colon {c : Char} (h : c.isDigit = true) : c ≠ ':' := by
  intro he
  have := isDigit_beq_false h (d := ':') (by decide)
  rw [he] at this
  simp at this

theorem digit_not_ws {c : Char} (h : c.isDigit = true) : jsWhitespace c = false := by
  simp only [jsWhitespace]
  rw [isDigit_beq_false h (d := ' ') (by decide), isDigit_beq_false h (d := '\t') (by decide),
    isDigit_beq_false h (d := '\n') (by decide), isDigit_beq_false h (d := '\r') (by decide)]
  rfl

theorem digitsVal_append (xs : List Char) (c : Char) :
    digitsVal (xs ++ [c]) = 10 * digitsVal xs + (c.toNat - 48) := by
  simp [digitsVal, List.foldl_append]

theorem natDigits_val (n : Nat) : digitsVal (natDigits n) = n := by
  induction n using Nat.strong_induction_on with
  | _ n ih =>
    rw [natDigits]
    by_cases h : n < 10
    · simp only [h, dif_pos, digitsVal, List.foldl]
      have := (digitChar_facts n h).2
      omega
    · have hd : n / 10 < n := Nat.div_lt_self (by omega) (by omega)
      simp only [h, dif_neg, not_false_iff]
      rw [digitsVal_append, ih _ hd]
      have := (digitChar_facts (n % 10) (by omega)).2
      omega

theorem natDigits_ne_nil (n : Nat) : natDigits n ≠ [] := by
  rw [natDigits]
  by_cases h : n < 10 <;> simp [h]

theorem natDigits_all_digit (n : Nat) : ∀ c ∈ natDigits n, c.isDigit = true := by
  induction n using Nat.strong_induction_on with
  | _ n ih =>
    rw [natDigits]
    by_cases h : n < 10
    · simp only [h, dif_pos, List.mem_singleton]
      intro c hc
      rw [hc]
      exact (digitChar_facts n h).1
    · have hd : n / 10 < n := Nat.div_lt_self (by omega) (by omega)
      simp only [h, dif_neg, not_false_iff, List.mem_append, List.mem_singleton]
      intro c hc
      cases hc with
      | inl hc => exact ih _ hd c hc
      | inr hc =>
        rw [hc]
        exact (digitChar_facts (n % 10) (by omega)).1

theorem natToDigitsAux_eq :
    ∀ (fuel n : Nat) (acc : List Char), n < fuel →
      natToDigitsAux fuel n acc = natDigits n ++ acc := by
  intro fuel
  induction fuel with
  | zero => intro n acc h; omega
  | succ f ih =>
    intro n acc h
    rw [natToDigitsAux, natDigits]
    by_cases h10 : n < 10
    · simp [h10, Nat.mod_eq_of_lt h10]
    · have hlt : n / 10 < n := Nat.div_lt_self (by omega) (by omega)
      simp only [h10, if_neg, not_false_iff, dif_neg]
      rw [ih (n / 10) _ (by omega)]
      simp

theorem natToStr_data (n : Nat) : (natToStr n).data = natDigits n := by
  show natToDigitsAux (n + 1) n [] = natDigits n
  rw [natToDigitsAux_eq (n + 1) n [] (by omega)]
  simp

theorem splitColon_nocolon (xs : List Char) (h : ∀ c ∈ xs, c ≠ ':') :
    splitColon xs = [xs] := by
  induction xs with
  | nil => rfl
  | cons c rest ih =>
    rw [splitColon]
    have hc : ¬(c = ':') := h c (by simp)
    rw [if_neg hc, ih (fun d hd => h d (by simp [hd]))]

theorem splitColon_append (xs ys : List Char) (h : ∀ c ∈ xs, c ≠ ':') :
    splitColon (xs ++ ':' :: ys) = xs :: splitColon ys := by
  induction xs with
  | nil =>
    rw [List.nil_append, splitColon, if_pos rfl]
  | cons c rest ih =>
    rw [List.cons_append, splitColon]
    have hc : ¬(c = ':') := h c (by simp)
    rw [if_neg hc, ih (fun d hd => h d (by simp [hd]))]

theorem takeWhile_all {α : Type} {p : α → Bool} (cs : List α) (h : ∀ c ∈ cs, p c = true) :
    cs.takeWhile p = cs := by
  induction cs with
  | nil => rfl
  | cons c rest ih =>
    rw [List.takeWhile_cons, if_pos (h c (by simp))]
    rw [ih (fun d hd => h d (by simp [hd]))]

theorem parseIntJS_digits (cs : List Char) (hne : cs ≠ [])
    (hall : ∀ c ∈ cs, c.isDigit = true) :
    parseIntJS (String.mk cs) = some ((digitsVal cs : Nat) : Int) := by
  match cs, hne with
  | c :: rest, _ =>
    have hc := hall c (by simp)
    show parseIntJS (String.mk (c :: rest)) = _
    unfold parseIntJS
    have hws : jsWhitespace c = false := digit_not_ws hc
    simp only [List.dropWhile_cons, hws, Bool.false_eq_true, if_false]
    rw [isDigit_beq_false hc (d := '-') (by decide), isDigit_beq_false hc (d := '+') (by decide)]
    simp only [Bool.false_eq_true, if_false]
    unfold parseIntDigits
    rw [takeWhile_all (c :: rest) hall]
    rfl

theorem parseTimestamp_request (now : Nat) (address : String)
    (h : ∀ c ∈ address.data, c ≠ ':') :
    parseTimestamp (requestMessageOwnershipVerification now address) = some (now : Int) := by
  have hdigits := natDigits_all_digit now
  have hdata : (requestMessageOwnershipVerification now address).data
      = address.data ++ ':' :: (natDigits now ++ ':' :: "starRegistry".data) := by
    show (address ++ ":" ++ natToStr now ++ ":starRegistry").data = _
    rw [String.data_append, String.data_append, String.data_append, natToStr_data]
    simp
  unfold parseTimestamp
  rw [hdata, splitColon_append _ _ h,
    splitColon_append _ _ (fun c hc => isDigit_ne_colon (hdigits c hc))]
  show parseIntJS (String.mk (natDigits now)) = _
  rw [parseIntJS_digits _ (natDigits_ne_nil now) hdigits, natDigits_val]

/-! ## Lemmas about `validateChain` -/

theorem chainLoopStep_eq (blocks : List Block) (errorLog : List String) (i : Nat) :
    chainLoopStep blocks errorLog i = errorLog ++ errsAt blocks i := by
  simp only [chainLoopStep, errsAt]
  generalize blocks.getD i default = cur
  generalize blocks.getD (i - 1) default = prev
  by_cases h1 : cur.validate = true <;>
    by_cases h2 : (cur.previousBlockHash == prev.hash) = true <;>
      simp [h1, h2]

theorem walkErrors_singleton (i : Nat) (l : List Block) (h : l.length = 1) :
    walkErrors i l = [] := by
  obtain ⟨b, rfl⟩ := List.length_eq_one.mp h
  rfl

theorem foldl_chainLoop (blocks : List Block) :
    ∀ (m j : Nat) (acc : List String), blocks.length - (j + 1) = m → j + 1 ≤ blocks.length →
      (List.range' (j + 1) m).foldl (chainLoopStep blocks) acc
        = acc ++ walkErrors j (blocks.drop j) := by
  intro m
  induction m with
  | zero =>
    intro j acc hm hj
    have h1 : (blocks.drop j).length = 1 := by
      rw [List.length_drop]; omega
    rw [walkErrors_singleton j _ h1]
    simp
  | succ m ih =>
    intro j acc hm hj
    have hjlt : j + 1 < blocks.length := by omega
    have hd0 : blocks.drop j = blocks[j] :: blocks.drop (j + 1) :=
      List.drop_eq_getElem_cons (by omega)
    have hd1 : blocks.drop (j + 1) = blocks[j + 1] :: blocks.drop (j + 2) :=
      List.drop_eq_getElem_cons (by omega)
    have hg0 : blocks.getD j default = blocks[j] := by
      rw [List.getD_eq_getElem?_getD, List.getElem?_eq_getElem (by omega)]; rfl
    have hg1 : blocks.getD (j + 1) default = blocks[j + 1] := by
      rw [List.getD_eq_getElem?_getD, List.getElem?_eq_getElem (by omega)]; rfl
    rw [List.range'_succ, List.foldl_cons, ih (j + 1) _ (by omega) (by omega),
      chainLoopStep_eq, hd0, hd1, walkErrors, ← hd1]
    unfold errsAt
    simp only [Nat.add_sub_cancel]
    rw [hg0, hg1]
    rw [List.append_assoc]

theorem chainErrorLog_eq_walk (blocks : List Block) (h : 2 ≤ blocks.length) :
    chainErrorLog blocks = walkErrors 0 blocks := by
  unfold chainErrorLog
  have h0 : (blocks.length == 0) = false := by
    rw [beq_eq_false_iff_ne]; omega
  have h1 : (blocks.length == 1) = false := by
    rw [beq_eq_false_iff_ne]; omega
  rw [h0, h1]
  simp only [Bool.false_eq_true, if_false]
  have := foldl_chainLoop blocks (blocks.length - 1) 0 [] (by omega) (by omega)
  rw [this]
  simp

/-! ## Lemmas about the wallet scan -/

theorem starsStep_error (address : String) (acc : Option String × List Payload) (b : Block)
    (e : String) (hb : b.getBData = .error e) :
    starsStep address acc b
      = (match acc.1 with
         | some e0 => some e0
         | none => some e, acc.2) := by
  unfold starsStep
  rw [hb]

theorem starsStep_ok (address : String) (acc : Option String × List Payload) (b : Block)
    (p : Payload) (hb : b.getBData = .ok p) :
    starsStep address acc b
      = (if p.owner == some address then (acc.1, acc.2 ++ [p]) else (acc.1, acc.2)) := by
  unfold starsStep
  rw [hb]

theorem ownedStars_cons_error (address : String) (b : Block) (rest : List Block)
    (e : String) (hb : b.getBData = .error e) :
    ownedStars address (b :: rest) = ownedStars address rest := by
  unfold ownedStars
  rw [List.filterMap_cons]
  simp [hb]

theorem ownedStars_cons_ok (address : String) (b : Block) (rest : List Block)
    (p : Payload) (hb : b.getBData = .ok p) :
    ownedStars address (b :: rest)
      = (if p.owner == some address then [p] else []) ++ ownedStars address rest := by
  unfold ownedStars
  rw [List.filterMap_cons]
  by_cases hp : (p.owner == some address) = true <;> simp [hb, hp]

theorem starsStep_foldl_some (address : String) (e0 : String) :
    ∀ (blocks : List Block) (accS : List Payload),
      blocks.foldl (starsStep address) (some e0, accS)
        = (some e0, accS ++ ownedStars address blocks) := by
  intro blocks
  induction blocks with
  | nil => intro accS; simp [ownedStars]
  | cons b rest ih =>
    intro accS
    rw [List.foldl_cons]
    cases hb : b.getBData with
    | error e =>
      rw [starsStep_error address _ b e hb, ownedStars_cons_error address b rest e hb]
      exact ih accS
    | ok p =>
      rw [starsStep_ok address _ b p hb, ownedStars_cons_ok address b rest p hb]
      by_cases hp : (p.owner == some address) = true
      · rw [if_pos hp, if_pos hp, ih]
        simp
      · rw [if_neg hp, if_neg hp, ih]
        simp

theorem starsStep_foldl_none (address : String) :
    ∀ (blocks : List Block) (accS : List Payload),
      blocks.foldl (starsStep address) (none, accS)
        = (firstDecodeError blocks, accS ++ ownedStars address blocks) := by
  intro blocks
  induction blocks with
  | nil => intro accS; simp [firstDecodeError, ownedStars]
  | cons b rest ih =>
    intro accS
    rw [List.foldl_cons]
    cases hb : b.getBData with
    | error e =>
      rw [starsStep_error address _ b e hb, ownedStars_cons_error address b rest e hb]
      show rest.foldl (starsStep address) (some e, accS) = _
      rw [starsStep_foldl_some address e rest accS]
      unfold firstDecodeError
      rw [hb]
    | ok p =>
      rw [starsStep_ok address _ b p hb, ownedStars_cons_ok address b rest p hb]
      have hfd : firstDecodeError (b :: rest) = firstDecodeError rest := by
        rw [firstDecodeError, hb]
      rw [hfd]
      by_cases hp : (p.owner == some address) = true
      · rw [if_pos hp, if_pos hp, ih]
        simp
      · rw [if_neg hp, if_neg hp, ih]
        simp

/-! ## Lemmas about reachable states -/

theorem newChain_eq (t : Nat) : newChain t = { chain := [genesisBlockAt t], height := 1 } := rfl

theorem getLatestBlock_eq (c : Chain) (h : 0 < c.chain.length) :
    getLatestBlock c = some (c.chain.getD (c.chain.length - 1) default) := by
  unfold getLatestBlock
  rw [List.getLast?_eq_getElem?, List.getElem?_eq_getElem (by omega),
    List.getD_eq_getElem?_getD, List.getElem?_eq_getElem (by omega)]
  rfl

theorem validateChain_ok_true (c : Chain) (v : Bool) (h : validateChain c = .ok v) :
    v = true := by
  unfold validateChain at h
  by_cases hl : ((chainErrorLog c.chain).length == 0) = true
  · rw [if_pos hl] at h
    exact (Except.ok.injEq _ _ ▸ h.symm)
  · rw [if_neg hl] at h
    exact absurd h (by simp)

theorem addBlock_ok_elim (now : Nat) (c : Chain) (block : Block) (c2 : Chain) (b : Block)
    (h : addBlock now c block = .ok (c2, b)) :
    c2 = { chain := c.chain ++ [b], height := ((c.chain.length + 1 : Nat) : Int) } := by
  unfold addBlock at h
  cases hv : validateChain c with
  | error e => rw [hv] at h; exact absurd h (by simp)
  | ok v =>
    rw [hv] at h
    simp only [Except.ok.injEq, Prod.mk.injEq] at h
    obtain ⟨hc2, hb⟩ := h
    rw [← hc2, hb]

theorem addBlock_ok_block (now : Nat) (c : Chain) (p : Payload) (c2 : Chain) (b : Block)
    (hpos : 0 < c.chain.length)
    (h : addBlock now c (newBlock p) = .ok (c2, b)) :
    b.height = c.chain.length ∧
      b.previousBlockHash = (c.chain.getD (c.chain.length - 1) default).hash := by
  unfold addBlock at h
  cases hv : validateChain c with
  | error e => rw [hv] at h; exact absurd h (by simp)
  | ok v =>
    rw [hv] at h
    rw [getLatestBlock_eq c hpos] at h
    simp only [Except.ok.injEq, Prod.mk.injEq] at h
    obtain ⟨_, hb⟩ := h
    rw [← hb, if_pos hpos]
    exact ⟨rfl, rfl⟩

theorem reachable_inv {c : Chain} (h : Reachable c) : ChainInv c := by
  induction h with
  | init t =>
    rw [newChain_eq]
    refine ⟨rfl, by simp, ?_, ?_, rfl⟩
    · intro i hi
      simp only [List.length_singleton] at hi
      interval_cases i
      rfl
    · intro i hi1 hi2
      simp only [List.length_singleton] at hi2
      omega
  | step t p c c2 b hr heq ih =>
    obtain ⟨ihh, ihpos, ihheight, ihlink, ihgen⟩ := ih
    have hc2 := addBlock_ok_elim t c (newBlock p) c2 b heq
    have hbfields := addBlock_ok_block t c p c2 b ihpos heq
    subst hc2
    refine ⟨by simp, by simp, ?_, ?_, ?_⟩
    · intro i hi
      simp only [List.length_append, List.length_singleton] at hi
      by_cases hlt : i < c.chain.length
      · rw [List.getD_append _ _ _ _ hlt]
        exact ihheight i hlt
      · have hieq : i = c.chain.length := by omega
        rw [List.getD_append_right _ _ _ _ (by omega)]
        rw [hieq]
        simp [hbfields.1]
    · intro i hi1 hi2
      simp only [List.length_append, List.length_singleton] at hi2
      by_cases hlt : i < c.chain.length
      · rw [List.getD_append _ _ _ _ hlt, List.getD_append _ _ _ _ (by omega)]
        exact ihlink i hi1 hlt
      · have hieq : i = c.chain.length := by omega
        rw [List.getD_append_right _ _ _ _ (by omega),
          List.getD_append _ _ _ _ (by omega)]
        rw [hieq]
        simp only [Nat.sub_self, List.getD]
        simpa using hbfields.2
    · rw [List.getD_append _ _ _ _ (by omega)]
      exact ihgen

/-- When the expiry check has already rejected, `submitStar` settles with that
first rejection whatever the verifier and the append do afterwards. -/
theorem submitStarVerify_rejected (verify : String → String → String → Except String Bool)
    (now : Nat) (c : Chain) (address message signature star m : String) :
    (submitStarVerify verify now c address message signature star (some m)).1
      = Outcome.rejected m := by
  unfold submitStarVerify
  cases hver : verify message address signature with
  | error e => rfl
  | ok isValid =>
    cases isValid with
    | false =>
      cases addBlock now c (newBlock (Payload.starData address star)) with
      | error el => rfl
      | ok pr => rfl
    | true =>
      cases addBlock now c (newBlock (Payload.starData address star)) with
      | error el => rfl
      | ok pr => rfl

/-! ## Claim theorems -/

/-- C1: the claim says a failing `submit` (expired challenge, or signature
verification returning false) leaves the ledger unchanged.  The code violates
this: its rejections do not stop execution, so on a fresh one-block ledger a
submission that is exactly expired but carries a verifying signature settles
as `rejected "Message Expired"` yet still appends a block (length 1 → 2), and
a submission whose signature verification returns `false` settles as
`rejected "Failed message validation."` yet also appends. -/
theorem submitStar_rejects_but_mutates :
    ((submitStar verifyAlwaysTrue 1300 (newChain 500) "addrA" "addrA:1000:starRegistry" "sig"
          "star1").1
        = Outcome.rejected "Message Expired" ∧
      (submitStar verifyAlwaysTrue 1300 (newChain 500) "addrA" "addrA:1000:starRegistry" "sig"
          "star1").2.chain.length = 2) ∧
    ((submitStar verifyAlwaysFalse 1000 (newChain 500) "addrA" "addrA:1000:starRegistry" "sig"
          "star1").1
        = Outcome.rejected "Failed message validation." ∧
      (submitStar verifyAlwaysFalse 1000 (newChain 500) "addrA" "addrA:1000:starRegistry" "sig"
          "star1").2.chain.length = 2) ∧
    (newChain 500).chain.length = 1 := by decide

/-- C2: the claim says every stored block hash is reproducible from the
block's final fields with `hash` excluded, `previousBlockHash` included.  The
code violates this for every non-genesis block: `_addBlock` computes the hash
before assigning `previousBlockHash`, so for the appended block of the
two-block chain `sampleChain2` the self-validation against the final fields
fails, while the stored hash matches the digest of the block with
`previousBlockHash` cleared back to `null` (the genesis block, whose
`previousBlockHash` is never reassigned, still validates). -/
theorem storedHash_not_over_final_fields :
    sampleBlock1.validate = false ∧
    (sampleChain2.chain.getD 0 default).validate = true ∧
    sampleBlock1.hash =
      some (SHA256 (serializeBlock { sampleBlock1 with hash := none, previousBlockHash := none })) ∧
    sampleBlock1.previousBlockHash = (sampleChain2.chain.getD 0 default).hash ∧
    sampleChain2.chain.getD 1 default = sampleBlock1 := by decide

/-- C3 (counterexample): a freshly constructed ledger has exactly one block,
but `getChainHeight` returns 1, not 0 as the claim states — `_addBlock` sets
`this.height = this.chain.length`, not `length - 1`. -/
theorem fresh_chain_height_not_zero :
    (newChain 1000).chain.length = 1 ∧ getChainHeight (newChain 1000) ≠ 0 := by decide

/-- C3 (amended): the `height` field is derived from the block sequence, but
it equals `len(blocks)` (not `len(blocks) - 1`) in every reachable state, and
a freshly constructed ledger has exactly one block with `get_height()`
returning 1 (the `-1` of the empty pre-genesis state is overwritten during
construction). -/
theorem height_tracks_chain_length :
    (∀ c, Reachable c → getChainHeight c = (c.chain.length : Int) ∧ 0 < c.chain.length) ∧
    (∀ t, (newChain t).chain.length = 1 ∧ getChainHeight (newChain t) = 1) := by
  constructor
  · intro c h
    obtain ⟨h1, h2, _⟩ := reachable_inv h
    exact ⟨h1, h2⟩
  · intro t
    rw [newChain_eq]
    exact ⟨rfl, rfl⟩

/-- Witness for C3 (amended), at the freshly constructed ledger of second
1000. -/
theorem height_tracks_chain_length_witness :
    (getChainHeight (newChain 1000) = ((newChain 1000).chain.length : Int) ∧
      0 < (newChain 1000).chain.length) ∧
    ((newChain 1000).chain.length = 1 ∧ getChainHeight (newChain 1000) = 1) :=
  ⟨height_tracks_chain_length.1 (newChain 1000) (Reachable.init 1000),
    height_tracks_chain_length.2 1000⟩

/-- C4: in every chain state reachable through the append operation, each
block at index `i > 0` has `previousBlockHash` equal to the hash of the block
at `i - 1` and records height `i`, while the genesis block at index 0 keeps
the sentinel (`null`) previous hash and height 0. -/
theorem linkage_invariant (c : Chain) (hreach : Reachable c) (i : Nat)
    (h1 : 0 < i) (h2 : i < c.chain.length) :
    ((c.chain.getD i default).previousBlockHash = (c.chain.getD (i - 1) default).hash ∧
      (c.chain.getD i default).height = i) ∧
    ((c.chain.getD 0 default).previousBlockHash = none ∧
      (c.chain.getD 0 default).height = 0) := by
  obtain ⟨_, hpos, hheight, hlink, hgen⟩ := reachable_inv hreach
  exact ⟨⟨hlink i h1 h2, hheight i h2⟩, hgen, hheight 0 (by omega)⟩

/-- Witness for C4, at index 1 of the concrete reachable two-block chain
`sampleChain2`. -/
theorem linkage_invariant_witness :
    ((sampleChain2.chain.getD 1 default).previousBlockHash
        = (sampleChain2.chain.getD 0 default).hash ∧
      (sampleChain2.chain.getD 1 default).height = 1) ∧
    ((sampleChain2.chain.getD 0 default).previousBlockHash = none ∧
      (sampleChain2.chain.getD 0 default).height = 0) :=
  linkage_invariant sampleChain2
    (Reachable.step 800 (Payload.starData "addrA" "star1") (newChain 500) sampleChain2 sampleBlock1
      (Reachable.init 500) (by rfl))
    1 (by decide) (by decide)

/-- C5: `_addBlock` runs full-chain validation over the existing chain before
accepting the new block: when validation reports inconsistencies the
operation fails carrying exactly that error list and no block is added (the
result holds no new state), and only when validation succeeds is the chain
extended — by exactly the one new block. -/
theorem addBlock_validates_first (now : Nat) (c : Chain) (block : Block) :
    (∃ errs, validateChain c = .error errs ∧ addBlock now c block = .error errs) ∨
    (validateChain c = .ok true ∧
      ∃ nb, addBlock now c block
        = .ok ({ chain := c.chain ++ [nb], height := ((c.chain.length + 1 : Nat) : Int) }, nb)) := by
  cases hv : validateChain c with
  | error e =>
    left
    refine ⟨e, rfl, ?_⟩
    unfold addBlock
    rw [hv]
  | ok v =>
    right
    have hvt := validateChain_ok_true c v hv
    subst hvt
    refine ⟨rfl, ?_⟩
    unfold addBlock
    rw [hv]
    exact ⟨_, rfl⟩

/-- C6: `validateChain` coincides with the spec-side description
`validateChainSpec`: a chain of length 0 is valid; a chain of length 1 is
valid iff the sole block's `validate()` passes; longer chains are walked from
index 1 to the end, accumulating a self-validation description and a
previous-hash description per index in order, succeeding with no errors or
failing with the ordered list of every inconsistency found. -/
theorem validateChain_eq_spec (c : Chain) : validateChain c = validateChainSpec c.chain := by
  rcases hlen2 : c.chain.length with _ | n
  · have hnil : c.chain = [] := List.length_eq_zero.mp hlen2
    unfold validateChain validateChainSpec chainErrorLog
    rw [hnil]
    rfl
  · rcases n with _ | m
    · obtain ⟨b, hb⟩ := List.length_eq_one.mp hlen2
      unfold validateChain validateChainSpec chainErrorLog
      rw [hb]
      by_cases hbv : b.validate = true <;> simp [hbv]
    · have h2 : 2 ≤ c.chain.length := by omega
      unfold validateChain validateChainSpec
      rw [chainErrorLog_eq_walk c.chain h2]
      rw [if_neg (by omega : ¬(c.chain.length = 0)), if_neg (by omega : ¬(c.chain.length = 1))]
      by_cases hw : walkErrors 0 c.chain = []
      · rw [if_pos hw, hw]
        rfl
      · rw [if_neg hw]
        have hlf : ((walkErrors 0 c.chain).length == 0) = false := by
          rw [beq_eq_false_iff_ne]
          simpa using hw
        rw [hlf]
        simp

/-- C7: the 5-minute signing window has an inclusive upper bound: with the
embedded timestamp `t`, a submission at `t + 300` seconds settles as
`rejected "Message Expired"` whatever the verifier does, while at `t + 299`
the expiry check passes and `submitStar` proceeds exactly as the
signature-verification phase with no pending rejection. -/
theorem submitStar_expiry_boundary (t : Nat) (message : String)
    (hmsg : parseTimestamp message = some (t : Int)) :
    (∀ verify c address signature star,
      (submitStar verify (t + 300) c address message signature star).1
        = Outcome.rejected "Message Expired") ∧
    (∀ verify c address signature star,
      submitStar verify (t + 299) c address message signature star
        = submitStarVerify verify (t + 299) c address message signature star none) := by
  constructor
  · intro verify c address signature star
    have hexp : expiredCheck (t + 300) (parseTimestamp message) = true := by
      rw [hmsg]
      unfold expiredCheck
      rw [decide_eq_true_eq]
      push_cast
      omega
    unfold submitStar
    rw [hexp, if_pos rfl]
    exact submitStarVerify_rejected verify (t + 300) c address message signature star _
  · intro verify c address signature star
    have hexp : expiredCheck (t + 299) (parseTimestamp message) = false := by
      rw [hmsg]
      unfold expiredCheck
      rw [decide_eq_false_iff_not]
      push_cast
      omega
    unfold submitStar
    rw [hexp, if_neg Bool.false_ne_true]

/-- Witness for C7, with the concrete challenge of timestamp 1000 submitted
at seconds 1300 and 1299. -/
theorem submitStar_expiry_boundary_witness :
    (submitStar verifyAlwaysTrue 1300 (newChain 777) "a" "a:1000:starRegistry" "s" "st").1
        = Outcome.rejected "Message Expired" ∧
    submitStar verifyAlwaysTrue 1299 (newChain 777) "a" "a:1000:starRegistry" "s" "st"
        = submitStarVerify verifyAlwaysTrue 1299 (newChain 777) "a" "a:1000:starRegistry" "s" "st"
            none :=
  ⟨(submitStar_expiry_boundary 1000 "a:1000:starRegistry" (by decide)).1
      verifyAlwaysTrue (newChain 777) "a" "s" "st",
    (submitStar_expiry_boundary 1000 "a:1000:starRegistry" (by decide)).2
      verifyAlwaysTrue (newChain 777) "a" "s" "st"⟩

/-- C8: the wallet scan decodes every block's payload; it fails with the first
decode error whenever any block's payload is undecodable (never silently
skipping a corrupt block), and otherwise returns exactly the decoded payloads
whose `owner` equals the requested address, in chain order. -/
theorem getStars_eq_spec (c : Chain) (address : String) :
    getStarsByWalletAddress c address
      = match firstDecodeError c.chain with
        | some e => .error e
        | none => .ok (ownedStars address c.chain) := by
  unfold getStarsByWalletAddress
  rw [starsStep_foldl_none address c.chain []]
  cases firstDecodeError c.chain <;> rfl

/-- C9: `requestMessageOwnershipVerification` never fails and returns exactly
`"<address>:<timestamp>:starRegistry"` with the current whole-second time as
the timestamp — substantiated by the round trip: for any address without a
colon, the timestamp `submitStar` later parses out of the challenge is
exactly the issuing time. -/
theorem request_message_format (now : Nat) (address : String)
    (haddr : ∀ c ∈ address.data, c ≠ ':') :
    requestMessageOwnershipVerification now address
        = address ++ ":" ++ natToStr now ++ ":starRegistry" ∧
    parseTimestamp (requestMessageOwnershipVerification now address) = some (now : Int) :=
  ⟨rfl, parseTimestamp_request now address haddr⟩

/-- Witness for C9, at address `"walletA"` and second 1234. -/
theorem request_message_format_witness :
    requestMessageOwnershipVerification 1234 "walletA"
        = "walletA" ++ ":" ++ natToStr 1234 ++ ":starRegistry" ∧
    parseTimestamp (requestMessageOwnershipVerification 1234 "walletA") = some (1234 : Int) :=
  request_message_format 1234 "walletA" (by decide)

/-- C10: a message whose second colon-delimited field does not parse as an
integer (`parseInt` yields `NaN`, e.g. no colons at all or a non-numeric
timestamp field) never trips the expiry check — the JavaScript comparison
against `NaN` is false — so `submitStar` falls through to the
signature-verification phase with no pending rejection. -/
theorem nan_timestamp (message : String) (hmsg : parseTimestamp message = none) :
    (∀ now, expiredCheck now (parseTimestamp message) = false) ∧
    (∀ verify now c address signature star,
      submitStar verify now c address message signature star
        = submitStarVerify verify now c address message signature star none) := by
  constructor
  · intro now
    rw [hmsg]
    rfl
  · intro verify now c address signature star
    unfold submitStar
    rw [hmsg]
    rfl

/-- Witness for C10, with a colon-free message and a message whose timestamp
field is not numeric. -/
theorem nan_timestamp_witness :
    (expiredCheck 99999 (parseTimestamp "hello") = false ∧
      submitStar verifyAlwaysTrue 99999 (newChain 500) "a" "hello" "s" "st"
        = submitStarVerify verifyAlwaysTrue 99999 (newChain 500) "a" "hello" "s" "st" none) ∧
    (expiredCheck 88888 (parseTimestamp "a:xyz:b") = false ∧
      submitStar verifyAlwaysFalse 88888 (newChain 500) "a" "a:xyz:b" "s" "st"
        = submitStarVerify verifyAlwaysFalse 88888 (newChain 500) "a" "a:xyz:b" "s" "st" none) :=
  ⟨⟨(nan_timestamp "hello" (by decide)).1 99999,
    (nan_timestamp "hello" (by decide)).2 verifyAlwaysTrue 99999 (newChain 500) "a" "s" "st"⟩,
    ⟨(nan_timestamp "a:xyz:b" (by decide)).1 88888,
    (nan_timestamp "a:xyz:b" (by decide)).2 verifyAlwaysFalse 88888 (newChain 500) "a" "s" "st"⟩⟩

end StarLedger
